import Mathlib

/-!
Verification of the YNAB MCP data-access layer (`ynab_client.py`, `server.py`).

The Python client wraps a remote budgeting API: it converts integer
milliunits to decimal amounts on reads (guarded by the idiom
`x / 1000 if x else 0`), converts decimal amounts to milliunits on writes
with `int(amount * 1000)` (truncation toward zero), filters accounts,
categories and transactions locally, merges partial updates over the
existing transaction, and moves funds between budget categories.

Decimal amounts are modelled as rationals (`ℚ`); Python `None` becomes
`Option.none`; raising an exception becomes an `Except.error` value.
-/

set_option autoImplicit false

namespace YnabMcp

/-- Truncation of a rational toward zero, the semantics of Python `int()`
applied to a number: floor for nonnegative values, ceiling for negative
values. -/
def ratTrunc (q : ℚ) : ℤ :=
  if 0 ≤ q then ⌊q⌋ else ⌈q⌉

/-- Write-path conversion of a decimal amount to integer milliunits,
embedding `int(amount * 1000)` from `create_transaction`,
`update_transaction`, `update_category_budget` and `move_category_funds`. -/
def toMilliunits (amount : ℚ) : ℤ :=
  ratTrunc (amount * 1000)

/-- Read-path conversion of an optional milliunit field to a decimal,
embedding the guard idiom `x / 1000 if x else 0` used on every read:
a missing (`None`) or zero field yields `0`, anything else is divided
by 1000.  The function is total, so the unguarded error branch
(division applied to a missing value) never runs. -/
def safeMilli (x : Option ℤ) : ℚ :=
  match x with
  | none => 0
  | some v => if v = 0 then 0 else (v : ℚ) / 1000

/-- Does the character sequence `hay` start with the sequence `needle`? -/
def seqStarts : List Char → List Char → Bool
  | [], _ => true
  | _ :: _, [] => false
  | a :: as, b :: bs => a == b && seqStarts as bs

/-- Does the character sequence `hay` contain `needle` as a contiguous
subsequence?  Used to embed Python substring membership `needle in hay`. -/
def seqContains (needle hay : List Char) : Bool :=
  match hay with
  | [] => seqStarts needle []
  | _ :: t => seqStarts needle hay || seqContains needle t

/-- Lower-cased character sequence of a string, embedding `s.lower()`. -/
def lowerChars (s : String) : List Char :=
  s.toList.map Char.toLower

/-- The error taxonomy of the access layer.  `validation` embeds the
Python `ValueError` / `YNABValidationError` raised on bad local input; it
is distinguishable by constructor from remote-API and network failures. -/
inductive YnabError : Type where
  | validation (msg : String) : YnabError
  | notFound (msg : String) : YnabError
  | api (msg : String) : YnabError
  | connection (msg : String) : YnabError
  deriving DecidableEq

/-- The constructed client state: `YNABClient.__init__` stores the token
and the fixed API base URL. -/
structure Client : Type where
  access_token : String
  api_base_url : String
  deriving DecidableEq

/-- The message of the error raised by `YNABClient.__init__` when the
token is missing, taken verbatim from the source. -/
def tokenErrorMsg : String :=
  "YNAB_ACCESS_TOKEN environment variable must be set. " ++
    "Get your token at: https://app.ynab.com/settings/developer"

/-- `YNABClient.__init__`: fails when `not access_token` (the token is
`None` or the empty string) and otherwise stores the token.  The second
component is the list of network requests issued during construction —
the empty list, because the constructor contains no HTTP call (`httpx`
is used only inside the individual operations). -/
def mkClient (access_token : Option String) : Except YnabError Client × List String :=
  match access_token with
  | none => (.error (.validation tokenErrorMsg), [])
  | some tok =>
    if tok = "" then
      (.error (.validation tokenErrorMsg), [])
    else
      (.ok ⟨tok, "https://api.ynab.com/v1"⟩, [])

/-- A raw account as delivered by the remote API inside
`get_accounts`: the balance is an optional integer milliunit field. -/
structure RawAccount : Type where
  id : String
  name : String
  type : String
  on_budget : Bool
  closed : Bool
  balance : Option ℤ
  deleted : Bool
  deriving DecidableEq

/-- The tool-facing account shape produced by `get_accounts`. -/
structure AccountOut : Type where
  id : String
  name : String
  type : String
  on_budget : Bool
  closed : Bool
  balance : ℚ
  deriving DecidableEq

/-- The per-account reshaping done in the `get_accounts` loop body. -/
def convAccount (a : RawAccount) : AccountOut :=
  { id := a.id, name := a.name, type := a.type, on_budget := a.on_budget,
    closed := a.closed, balance := safeMilli a.balance }

/-- `YNABClient.get_accounts`: skips deleted accounts and reshapes the
rest. -/
def get_accounts (raws : List RawAccount) : List AccountOut :=
  (raws.filter (fun a => !a.deleted)).map convAccount

/-- A category as delivered by the SDK's categories listing: `balance`
is an optional milliunit field, `budgeted` is the milliunit amount read
by `move_category_funds`. -/
structure CatRec : Type where
  id : String
  name : String
  budgeted : ℤ
  balance : Option ℤ
  hidden : Bool
  deleted : Bool
  deriving DecidableEq

/-- A category group as delivered by the SDK's categories listing. -/
structure GroupRec : Type where
  id : String
  name : String
  hidden : Bool
  categories : List CatRec
  deriving DecidableEq

/-- The tool-facing category shape produced by `get_categories`. -/
structure CatOut : Type where
  id : String
  name : String
  balance : ℚ
  hidden : Bool
  deriving DecidableEq

/-- The tool-facing category-group shape produced by `get_categories`. -/
structure GroupOut : Type where
  id : String
  name : String
  hidden : Bool
  categories : List CatOut
  deriving DecidableEq

/-- The per-category reshaping done in the `get_categories` loop body. -/
def convCat (c : CatRec) : CatOut :=
  { id := c.id, name := c.name, balance := safeMilli c.balance,
    hidden := c.hidden }

/-- `YNABClient.get_categories`: drops hidden or deleted categories
unless `include_hidden`, then drops every group that is hidden (unless
`include_hidden`) or whose filtered category list is empty. -/
def get_categories (groups : List GroupRec) (include_hidden : Bool) : List GroupOut :=
  groups.filterMap (fun g =>
    let cats := (g.categories.filter
      (fun c => include_hidden || (!c.hidden && !c.deleted))).map convCat
    if (!include_hidden && g.hidden) || cats.isEmpty then
      none
    else
      some { id := g.id, name := g.name, hidden := g.hidden, categories := cats })

/-- All `(category id, group name)` pairs of a categories listing, in
listing order: the entries inserted into `category_group_map` by
`get_budget_summary`, and the iteration order of `move_category_funds`. -/
def groupPairs : List GroupRec → List (String × String)
  | [] => []
  | g :: gs => g.categories.map (fun c => (c.id, g.name)) ++ groupPairs gs

/-- Lookup in the `category_group_map` dict built by
`get_budget_summary`: later insertions overwrite earlier ones, so the
last matching pair wins. -/
def categoryGroupName (groups : List GroupRec) (i : String) : Option String :=
  (((groupPairs groups).filter (fun p => p.1 = i)).getLast?).map (fun p => p.2)

/-- All categories of a listing in iteration order, used by
`move_category_funds`. -/
def allCats : List GroupRec → List CatRec
  | [] => []
  | g :: gs => g.categories ++ allCats gs

/-- Lookup of a category id in the dict built by `move_category_funds`
(`categories[cat.id] = ...` for ids among the two arguments): the last
matching category wins. -/
def catLookup (groups : List GroupRec) (i : String) : Option CatRec :=
  ((allCats groups).filter (fun c => c.id = i)).getLast?

/-- A category entry of the month endpoint's flat list, as read by
`get_budget_summary`: the three monetary fields are optional integer
milliunits. -/
structure MonthCat : Type where
  id : String
  name : String
  budgeted : Option ℤ
  activity : Option ℤ
  balance : Option ℤ
  deriving DecidableEq

/-- The month object of the `/months/{month}` endpoint response. -/
structure MonthData : Type where
  income : Option ℤ
  to_be_budgeted : Option ℤ
  categories : List MonthCat
  deriving DecidableEq

/-- A per-category row of the budget summary. -/
structure SummaryRow : Type where
  category_group : String
  category_name : String
  budgeted : ℚ
  activity : ℚ
  balance : ℚ
  deriving DecidableEq

/-- The tool-facing budget summary produced by `get_budget_summary`. -/
structure Summary : Type where
  month : String
  income : ℚ
  budgeted : ℚ
  activity : ℚ
  balance : ℚ
  to_be_budgeted : ℚ
  categories : List SummaryRow
  deriving DecidableEq

/-- The per-category row built in the `get_budget_summary` loop:
the group name is looked up in `category_group_map` with default
`"Unknown"`. -/
def summaryRow (groups : List GroupRec) (c : MonthCat) : SummaryRow :=
  { category_group := (categoryGroupName groups c.id).getD "Unknown",
    category_name := c.name,
    budgeted := safeMilli c.budgeted,
    activity := safeMilli c.activity,
    balance := safeMilli c.balance }

/-- `YNABClient.get_budget_summary`: converts each month category's
monetary fields, accumulates the three totals in a running fold exactly
as the Python loop does, and attaches group names via the map with
default `"Unknown"`. -/
def get_budget_summary (month : String) (md : MonthData) (groups : List GroupRec) : Summary :=
  { month := month,
    income := safeMilli md.income,
    budgeted := md.categories.foldl (fun acc c => acc + safeMilli c.budgeted) 0,
    activity := md.categories.foldl (fun acc c => acc + safeMilli c.activity) 0,
    balance := md.categories.foldl (fun acc c => acc + safeMilli c.balance) 0,
    to_be_budgeted := safeMilli md.to_be_budgeted,
    categories := md.categories.map (summaryRow groups) }

/-- A raw transaction of the remote transactions endpoint as read by
`get_transactions`: `id` and `date` are accessed unconditionally, every
other field through `.get(...)` and may be absent. -/
structure RawTxn : Type where
  id : String
  date : String
  amount : Option ℤ
  memo : Option String
  cleared : Option String
  approved : Option Bool
  account_id : Option String
  account_name : Option String
  payee_id : Option String
  payee_name : Option String
  category_id : Option String
  category_name : Option String
  transfer_account_id : Option String
  deleted : Option Bool
  deriving DecidableEq

/-- The tool-facing transaction shape produced by `get_transactions`. -/
structure TxnOut : Type where
  id : String
  date : String
  amount : ℚ
  memo : Option String
  cleared : Option String
  approved : Option Bool
  account_id : Option String
  account_name : Option String
  payee_id : Option String
  payee_name : Option String
  category_id : Option String
  category_name : Option String
  transfer_account_id : Option String
  deleted : Option Bool
  deriving DecidableEq

/-- The per-transaction reshaping done in the `get_transactions` loop
body: the amount is converted with the guarded milliunit idiom, all
other fields are copied. -/
def convTxn (t : RawTxn) : TxnOut :=
  { id := t.id, date := t.date, amount := safeMilli t.amount,
    memo := t.memo, cleared := t.cleared, approved := t.approved,
    account_id := t.account_id, account_name := t.account_name,
    payee_id := t.payee_id, payee_name := t.payee_name,
    category_id := t.category_id, category_name := t.category_name,
    transfer_account_id := t.transfer_account_id, deleted := t.deleted }

/-- The `category_id` post-fetch filter of `get_transactions`:
a transaction is skipped when the parameter is truthy (present and
nonempty) and the transaction's category does not equal it. -/
def keepsCategory (category_id : Option String) (t : RawTxn) : Bool :=
  match category_id with
  | none => true
  | some c => if c = "" then true else t.category_id == some c

/-- The filtering-and-reshaping core of `YNABClient.get_transactions`
over the transactions returned by the remote endpoint. -/
def get_transactions_core (txns : List RawTxn) (category_id : Option String) : List TxnOut :=
  (txns.filter (keepsCategory category_id)).map convTxn

/-- The field set shared by the fetched existing transaction and the
`TransactionRequest` write payload of `update_transaction`: the amount
is stored in integer milliunits. -/
structure TxnFields : Type where
  account_id : String
  date : String
  amount : ℤ
  payee_name : Option String
  category_id : Option String
  memo : Option String
  cleared : String
  approved : Bool
  deriving DecidableEq

/-- The payload merge of `YNABClient.update_transaction`, field by
field from the source: `account_id`, `date` and `cleared` fall back to
the existing value on a falsy argument (`None` or `""`); `payee_name`,
`category_id` and `memo` fall back only on `None` (`is not None`
tests); `amount` and `approved` fall back only on `None`, with a
provided amount converted by `int(amount * 1000)`. -/
def buildUpdatePayload (existing : TxnFields)
    (account_id : Option String) (date : Option String) (amount : Option ℚ)
    (payee_name : Option String) (category_id : Option String)
    (memo : Option String) (cleared : Option String)
    (approved : Option Bool) : TxnFields :=
  { account_id :=
      match account_id with
      | some s => if s = "" then existing.account_id else s
      | none => existing.account_id,
    date :=
      match date with
      | some s => if s = "" then existing.date else s
      | none => existing.date,
    amount :=
      match amount with
      | some a => toMilliunits a
      | none => existing.amount,
    payee_name :=
      match payee_name with
      | some s => some s
      | none => existing.payee_name,
    category_id :=
      match category_id with
      | some s => some s
      | none => existing.category_id,
    memo :=
      match memo with
      | some s => some s
      | none => existing.memo,
    cleared :=
      match cleared with
      | some s => if s = "" then existing.cleared else s
      | none => existing.cleared,
    approved :=
      match approved with
      | some b => b
      | none => existing.approved }

/-- A budgeted-amount write request issued by `move_category_funds`
(target category id, new budgeted amount in milliunits). -/
structure CategoryWrite : Type where
  category_id : String
  budgeted : ℤ
  deriving DecidableEq

/-- `YNABClient.move_category_funds`: collects the two categories from
the fetched listing (dict insertion, last occurrence wins), raises the
not-found error when either id is absent — before the HTTP block, so no
write is issued — and otherwise issues the two budgeted writes
`int((from/1000 - amount) * 1000)` and `int((to/1000 + amount) * 1000)`
in order. -/
def move_category_funds (groups : List GroupRec)
    (from_category_id to_category_id : String) (amount : ℚ) :
    Except YnabError (List CategoryWrite) :=
  match catLookup groups from_category_id, catLookup groups to_category_id with
  | some fc, some tc =>
    .ok [⟨from_category_id, toMilliunits ((fc.budgeted : ℚ) / 1000 - amount)⟩,
         ⟨to_category_id, toMilliunits ((tc.budgeted : ℚ) / 1000 + amount)⟩]
  | _, _ => .error (.notFound "One or both category IDs not found")

/-- The pagination metadata dict of `get_transactions`. -/
structure PaginationMeta : Type where
  page : Nat
  per_page : Nat
  total_count : Nat
  total_pages : Nat
  has_next_page : Bool
  has_prev_page : Bool
  deriving DecidableEq

/-- Modelled from the spec: the local pagination stage of the
transaction listing (`get_transactions` with `limit`/`page`), whose
implementation is absent from the sources (only its spec, its caller in
`server.py` and its tests are present).  Over the post-filter result
set, `per_page` defaults to 100 and is clamped to the cap 500, `page`
is 1-indexed defaulting to 1, `total_pages = ceil(total_count /
per_page)`, `has_next_page = page < total_pages`, `has_prev_page =
page > 1`, and the returned slice is the `page`-th chunk of `per_page`
transactions. -/
def paginateTxns {α : Type} (txns : List α) (limit page : Option Nat) :
    List α × PaginationMeta :=
  let per_page := min (limit.getD 100) 500
  let p := page.getD 1
  let total := txns.length
  let total_pages := (total + per_page - 1) / per_page
  ((txns.drop ((p - 1) * per_page)).take per_page,
   { page := p, per_page := per_page, total_count := total,
     total_pages := total_pages,
     has_next_page := decide (p < total_pages),
     has_prev_page := decide (1 < p) })

/-- The search predicate of `search_transactions`: case-insensitive
substring match of the search term against payee name or memo; an
absent (`None`) field never matches. -/
def matchesSearch (search_term : String) (t : RawTxn) : Bool :=
  (match t.payee_name with
   | some p => seqContains (lowerChars search_term) (lowerChars p)
   | none => false) ||
  (match t.memo with
   | some m => seqContains (lowerChars search_term) (lowerChars m)
   | none => false)

/-- Modelled from the spec: `search_transactions`, whose implementation
is absent from the sources (only its spec, its caller in `server.py`
and its tests are present).  Keeps the transactions whose payee name or
memo contains the term case-insensitively, reshapes them like the
transaction listing does, caps the result at `limit` (default 100, cap
500), and returns the matches together with their count. -/
def search_transactions (txns : List RawTxn) (search_term : String)
    (limit : Option Nat) : List TxnOut × Nat :=
  let matched := (txns.filter (matchesSearch search_term)).map convTxn
  let capped := matched.take (min (limit.getD 100) 500)
  (capped, capped.length)

/-- A raw transaction with the given id, date, amount, payee and memo
and every other optional field absent, as the remote API may deliver
it. -/
def mkRawTxn (id date : String) (amount : Option ℤ)
    (payee_name memo : Option String) : RawTxn :=
  { id := id, date := date, amount := amount, memo := memo,
    cleared := none, approved := none, account_id := none,
    account_name := none, payee_id := none, payee_name := payee_name,
    category_id := none, category_name := none,
    transfer_account_id := none, deleted := none }

/-- A one-group listing used to witness the not-found path of the
funds move. -/
def sampleGroups : List GroupRec :=
  [{ id := "group-1", name := "Bills", hidden := false,
     categories := [{ id := "cat-a", name := "Rent", budgeted := 5000,
                      balance := some 0, hidden := false, deleted := false }] }]

/-- A concrete existing transaction used to witness the update-merge
claims. -/
def sampleExisting : TxnFields :=
  { account_id := "acct-1", date := "2025-01-01", amount := -4500,
    payee_name := some "Store", category_id := some "cat-a",
    memo := some "old memo", cleared := "cleared", approved := true }

/-- A visible category of the sample categories listing. -/
def sampleCat1 : CatRec :=
  { id := "c1", name := "Groceries", budgeted := 0,
    balance := some 50000, hidden := false, deleted := false }

/-- A hidden category of the sample categories listing. -/
def sampleCat2 : CatRec :=
  { id := "c2", name := "Old Category", budgeted := 0,
    balance := some 0, hidden := true, deleted := false }

/-- A one-group categories listing with one visible and one hidden
category, used to witness the category-filtering claims. -/
def sampleCatListing : List GroupRec :=
  [{ id := "g1", name := "Food", hidden := false,
     categories := [sampleCat1, sampleCat2] }]

/-- The group that `get_categories` produces from the sample listing
when hidden categories are excluded. -/
def sampleVisibleGroup : GroupOut :=
  { id := "g1", name := "Food", hidden := false,
    categories := [convCat sampleCat1] }

/-- A month category whose id appears nowhere in the sample categories
listing, used to witness the budget-summary claims. -/
def sampleMonthCat : MonthCat :=
  { id := "cx", name := "Mystery", budgeted := some 12000,
    activity := some (-3000), balance := some 9000 }

/-- A month response containing only `sampleMonthCat`, used to witness
the budget-summary claims. -/
def sampleMonthData : MonthData :=
  { income := some 500000, to_be_budgeted := some 0,
    categories := [sampleMonthCat] }

/-- A raw account whose balance field is absent, used to witness the
guarded-conversion claims. -/
def sampleRawAccount : RawAccount :=
  { id := "a1", name := "Checking", type := "checking",
    on_budget := true, closed := false, balance := none,
    deleted := false }

/-- A raw transaction whose amount field is zero, used to witness the
guarded-conversion claims. -/
def sampleZeroTxn : RawTxn :=
  mkRawTxn "txn-0" "2025-10-01" (some 0) none none

/-- A raw transaction with neither payee name nor memo, used to witness
the search claims. -/
def sampleNullTxn : RawTxn :=
  mkRawTxn "txn-1" "2025-10-01" (some (-5000)) none none

/-- A raw transaction whose memo is `"groceries"`, used to witness the
search claims. -/
def sampleGroceryTxn : RawTxn :=
  mkRawTxn "txn-2" "2025-10-02" (some (-3000)) (some "Store") (some "groceries")

/-- C3: the read-path decimal conversion of a milliunit integer `m` is
`m / 1000`; the write-path conversion truncates (`int(amount * 1000)`),
so any amount whose thousandfold is not an integer (more than three
decimal digits) fails to round-trip; in particular
`to_milliunits(100.50) = 100500` and `to_milliunits(-25.75) = -25750`. -/
theorem milliunit_conversion_spec :
    (∀ m : ℤ, safeMilli (some m) = (m : ℚ) / 1000)
    ∧ (∀ q : ℚ, (∀ m : ℤ, (m : ℚ) ≠ q * 1000) →
        safeMilli (some (toMilliunits q)) ≠ q)
    ∧ toMilliunits (201 / 2 : ℚ) = 100500
    ∧ toMilliunits (-(103 / 4) : ℚ) = -25750 := by
  have hread : ∀ m : ℤ, safeMilli (some m) = (m : ℚ) / 1000 := by
    intro m
    by_cases hm : m = 0
    · simp [safeMilli, hm]
    · simp [safeMilli, hm]
  refine ⟨hread, ?_, ?_, ?_⟩
  · intro q hq hcontra
    rw [hread (toMilliunits q)] at hcontra
    apply hq (toMilliunits q)
    have h1000 : (1000 : ℚ) ≠ 0 := by norm_num
    field_simp at hcontra
    linarith [hcontra]
  · norm_num [toMilliunits, ratTrunc]
  · rw [toMilliunits, ratTrunc]
    norm_num
    rw [show (-25750 : ℚ) = ((-25750 : ℤ) : ℚ) by norm_num]
    exact Int.ceil_intCast _

/-- Closed witness for C3: the amount `0.0001` (four decimal digits)
does not survive the milliunit round-trip. -/
theorem milliunit_conversion_spec_witness :
    safeMilli (some (toMilliunits (1 / 10000 : ℚ))) ≠ (1 / 10000 : ℚ) := by
  apply milliunit_conversion_spec.2.1 (1 / 10000 : ℚ)
  intro m hm
  have h10 : (10 : ℚ) * (m : ℚ) = 1 := by
    rw [hm]; ring
  have hz : ((10 * m : ℤ) : ℚ) = ((1 : ℤ) : ℚ) := by push_cast; linarith
  have : (10 * m : ℤ) = 1 := Int.cast_injective hz
  omega

/-- C7: constructing the client with an absent or empty access token
fails with the validation error (a constructor distinct from the
API and connection errors), issues zero network requests during
construction, and the error message contains the token-acquisition
guidance URL. -/
theorem client_construction_validation (tok : Option String)
    (h : tok = none ∨ tok = some "") :
    (mkClient tok).1 = .error (.validation tokenErrorMsg)
    ∧ (mkClient tok).2 = []
    ∧ seqContains (lowerChars "https://app.ynab.com/settings/developer")
        (lowerChars tokenErrorMsg) = true
    ∧ (∀ m : String, YnabError.validation tokenErrorMsg ≠ .api m
        ∧ YnabError.validation tokenErrorMsg ≠ .connection m) := by
  rcases h with h | h <;> subst h
  · exact ⟨rfl, rfl, by decide, fun m => ⟨by simp, by simp⟩⟩
  · exact ⟨rfl, rfl, by decide, fun m => ⟨by simp, by simp⟩⟩

/-- Closed witness for C7: the empty token is rejected with the
validation error and no network request. -/
theorem client_construction_validation_witness :
    (mkClient (some "")).1 = .error (.validation tokenErrorMsg)
    ∧ (mkClient (some "")).2 = [] := by
  have h := client_construction_validation (some "") (Or.inr rfl)
  exact ⟨h.1, h.2.1⟩

/-- When an id matches no category of the listing, the dict lookup of
`move_category_funds` comes up empty. -/
theorem catLookup_eq_none_of_not_mem (groups : List GroupRec) (i : String)
    (h : i ∉ (allCats groups).map CatRec.id) : catLookup groups i = none := by
  unfold catLookup
  have hfil : (allCats groups).filter (fun c => c.id = i) = [] := by
    rw [List.filter_eq_nil_iff]
    intro c hc
    simp only [decide_eq_true_eq]
    intro hid
    exact h (List.mem_map.mpr ⟨c, hc, hid⟩)
  rw [hfil]
  rfl

/-- C5: when either category id is absent from the fetched category
set, `move_category_funds` fails with the not-found error and issues no
budgeted write to the remote service. -/
theorem move_category_funds_not_found (groups : List GroupRec)
    (from_category_id to_category_id : String) (amount : ℚ)
    (h : from_category_id ∉ (allCats groups).map CatRec.id
      ∨ to_category_id ∉ (allCats groups).map CatRec.id) :
    move_category_funds groups from_category_id to_category_id amount
      = .error (.notFound "One or both category IDs not found")
    ∧ ∀ writes : List CategoryWrite,
        move_category_funds groups from_category_id to_category_id amount
          ≠ .ok writes := by
  have herr : move_category_funds groups from_category_id to_category_id amount
      = .error (.notFound "One or both category IDs not found") := by
    rcases h with h | h
    · have hn := catLookup_eq_none_of_not_mem groups from_category_id h
      cases h2 : catLookup groups to_category_id <;>
        simp [move_category_funds, hn, h2]
    · have hn := catLookup_eq_none_of_not_mem groups to_category_id h
      cases h2 : catLookup groups from_category_id <;>
        simp [move_category_funds, hn, h2]
  refine ⟨herr, ?_⟩
  intro writes hok
  rw [herr] at hok
  exact Except.noConfusion hok

/-- Closed witness for C5: moving funds from a nonexistent category id
fails with the not-found error. -/
theorem move_category_funds_not_found_witness :
    move_category_funds sampleGroups "cat-missing" "cat-a" 10
      = .error (.notFound "One or both category IDs not found") :=
  (move_category_funds_not_found sampleGroups "cat-missing" "cat-a" 10
    (Or.inl (by simp [sampleGroups, allCats]))).1

/-- C4: in `update_transaction`, every argument left as `None` resolves
to the existing transaction's value in the constructed write payload;
in particular a call that specifies only `amount` copies every other
field from the existing transaction. -/
theorem update_transaction_merge (e : TxnFields)
    (account_id date : Option String) (amount : Option ℚ)
    (payee_name category_id memo cleared : Option String)
    (approved : Option Bool) :
    (account_id = none →
      (buildUpdatePayload e account_id date amount payee_name category_id
        memo cleared approved).account_id = e.account_id)
    ∧ (date = none →
      (buildUpdatePayload e account_id date amount payee_name category_id
        memo cleared approved).date = e.date)
    ∧ (amount = none →
      (buildUpdatePayload e account_id date amount payee_name category_id
        memo cleared approved).amount = e.amount)
    ∧ (payee_name = none →
      (buildUpdatePayload e account_id date amount payee_name category_id
        memo cleared approved).payee_name = e.payee_name)
    ∧ (category_id = none →
      (buildUpdatePayload e account_id date amount payee_name category_id
        memo cleared approved).category_id = e.category_id)
    ∧ (memo = none →
      (buildUpdatePayload e account_id date amount payee_name category_id
        memo cleared approved).memo = e.memo)
    ∧ (cleared = none →
      (buildUpdatePayload e account_id date amount payee_name category_id
        memo cleared approved).cleared = e.cleared)
    ∧ (approved = none →
      (buildUpdatePayload e account_id date amount payee_name category_id
        memo cleared approved).approved = e.approved)
    ∧ (∀ a : ℚ, buildUpdatePayload e none none (some a) none none none
        none none = { e with amount := toMilliunits a }) := by
  refine ⟨?_, ?_, ?_, ?_, ?_, ?_, ?_, ?_, ?_⟩
  all_goals first
    | (intro h; subst h; simp [buildUpdatePayload])
    | (intro a; rfl)

/-- Closed witness for C4: updating only the amount of a concrete
transaction leaves every other payload field at its prior value. -/
theorem update_transaction_merge_witness :
    buildUpdatePayload sampleExisting none none (some 7) none none none
      none none = { sampleExisting with amount := toMilliunits 7 } :=
  (update_transaction_merge sampleExisting none none (some 7) none none
    none none none).2.2.2.2.2.2.2.2 7

/-- C8: the merge rule of `update_transaction` is not uniform: an empty
string passed for `account_id`, `date` or `cleared` is treated as
unspecified (truthiness test) and falls back to the existing value,
while an empty string passed for `payee_name`, `category_id` or `memo`
overrides the existing value (`is not None` test). -/
theorem update_transaction_empty_string_merge (e : TxnFields) :
    (buildUpdatePayload e (some "") (some "") none (some "") (some "")
      (some "") (some "") none).account_id = e.account_id
    ∧ (buildUpdatePayload e (some "") (some "") none (some "") (some "")
      (some "") (some "") none).date = e.date
    ∧ (buildUpdatePayload e (some "") (some "") none (some "") (some "")
      (some "") (some "") none).cleared = e.cleared
    ∧ (buildUpdatePayload e (some "") (some "") none (some "") (some "")
      (some "") (some "") none).payee_name = some ""
    ∧ (buildUpdatePayload e (some "") (some "") none (some "") (some "")
      (some "") (some "") none).category_id = some ""
    ∧ (buildUpdatePayload e (some "") (some "") none (some "") (some "")
      (some "") (some "") none).memo = some "" := by
  refine ⟨?_, ?_, ?_, ?_, ?_, ?_⟩ <;> simp [buildUpdatePayload]

/-- C6: with `include_hidden=false`, every group returned by
`get_categories` is not hidden and nonempty, and each of its categories
comes from a source category that is neither hidden nor deleted; with
`include_hidden=true`, every hidden category of a source group reappears
in the output. -/
theorem get_categories_filtering (groups : List GroupRec) :
    (∀ g' ∈ get_categories groups false,
      g'.hidden = false ∧ g'.categories ≠ []
      ∧ ∀ c' ∈ g'.categories, ∃ g ∈ groups, ∃ c ∈ g.categories,
          c.hidden = false ∧ c.deleted = false ∧ c' = convCat c)
    ∧ (∀ g ∈ groups, ∀ c ∈ g.categories, c.hidden = true →
        ∃ g' ∈ get_categories groups true, convCat c ∈ g'.categories) := by
  constructor
  · intro g' hg'
    obtain ⟨g, hg, hfg⟩ := List.mem_filterMap.mp hg'
    by_cases hcond : ((!false && g.hidden)
        || ((g.categories.filter
              (fun c => false || (!c.hidden && !c.deleted))).map convCat).isEmpty) = true
    · rw [if_pos hcond] at hfg
      exact absurd hfg (by simp)
    · rw [if_neg hcond] at hfg
      simp only [Bool.not_eq_true] at hcond
      rw [Bool.or_eq_false_iff] at hcond
      obtain ⟨hhid, hne⟩ := hcond
      simp only [Bool.not_false, Bool.true_and] at hhid
      have hg' := Option.some.inj hfg
      refine hg' ▸ ⟨hhid, ?_, ?_⟩
      · intro hnil
        dsimp only at hnil
        rw [hnil] at hne
        simp at hne
      · intro c' hc'
        obtain ⟨c, hcf, hcc⟩ := List.mem_map.mp hc'
        have hcg := List.mem_of_mem_filter hcf
        have hp := List.of_mem_filter hcf
        simp only [Bool.false_or, Bool.and_eq_true, Bool.not_eq_true'] at hp
        exact ⟨g, hg, c, hcg, hp.1, hp.2, hcc.symm⟩
  · intro g hg c hc _
    refine ⟨{ id := g.id, name := g.name, hidden := g.hidden,
              categories := (g.categories.filter
                (fun c => true || (!c.hidden && !c.deleted))).map convCat },
            ?_, ?_⟩
    · apply List.mem_filterMap.mpr
      refine ⟨g, hg, ?_⟩
      have hne : ((g.categories.filter
          (fun c => true || (!c.hidden && !c.deleted))).map convCat).isEmpty = false := by
        have hcf : c ∈ g.categories.filter
            (fun c => true || (!c.hidden && !c.deleted)) :=
          List.mem_filter.mpr ⟨hc, by simp⟩
        have : convCat c ∈ (g.categories.filter
            (fun c => true || (!c.hidden && !c.deleted))).map convCat :=
          List.mem_map_of_mem convCat hcf
        cases hmap : (g.categories.filter
            (fun c => true || (!c.hidden && !c.deleted))).map convCat with
        | nil => rw [hmap] at this; exact absurd this (by simp)
        | cons x xs => rfl
      rw [if_neg]
      rw [Bool.not_true, Bool.false_and, Bool.false_or, hne]
      simp
    · apply List.mem_map_of_mem
      exact List.mem_filter.mpr ⟨hc, by simp⟩

/-- Closed witness for C6: on the sample listing the filtered output
group is visible and nonempty, and with `include_hidden=true` the
hidden sample category reappears in some output group. -/
theorem get_categories_filtering_witness :
    (sampleVisibleGroup.hidden = false ∧ sampleVisibleGroup.categories ≠ [])
    ∧ ∃ g' ∈ get_categories sampleCatListing true,
        convCat sampleCat2 ∈ g'.categories := by
  have hmem : sampleVisibleGroup ∈ get_categories sampleCatListing false := by
    have heq : get_categories sampleCatListing false = [sampleVisibleGroup] := rfl
    rw [heq]
    exact List.mem_singleton_self _
  have h1 := (get_categories_filtering sampleCatListing).1 sampleVisibleGroup hmem
  have h2 := (get_categories_filtering sampleCatListing).2
    { id := "g1", name := "Food", hidden := false,
      categories := [sampleCat1, sampleCat2] }
    (List.mem_singleton_self _) sampleCat2 (by simp) rfl
  exact ⟨⟨h1.1, h1.2.1⟩, h2⟩

/-- Accumulating a converted field in a running fold, as the
`get_budget_summary` loop does, computes the sum of the converted
field over the list. -/
theorem foldl_add_map_sum {β : Type} (g : β → ℚ) (l : List β) :
    ∀ init : ℚ, l.foldl (fun acc b => acc + g b) init = init + (l.map g).sum := by
  induction l with
  | nil => intro init; simp
  | cons b bs ih =>
    intro init
    simp only [List.foldl_cons, List.map_cons, List.sum_cons, ih]
    ring

/-- When a category id matches no entry of the general categories
listing, the group-name lookup of `get_budget_summary` comes up
empty. -/
theorem categoryGroupName_eq_none (groups : List GroupRec) (i : String)
    (h : i ∉ (groupPairs groups).map Prod.fst) :
    categoryGroupName groups i = none := by
  unfold categoryGroupName
  have hfil : (groupPairs groups).filter (fun p => p.1 = i) = [] := by
    rw [List.filter_eq_nil_iff]
    intro p hp
    simp only [decide_eq_true_eq]
    intro hid
    exact h (List.mem_map.mpr ⟨p, hp, hid⟩)
  rw [hfil]
  rfl

/-- C9: `get_budget_summary` labels every month category whose id is
absent from the general categories listing with the group name
`"Unknown"` instead of failing, and its three totals are the sums of
the converted per-category fields over all listed month categories. -/
theorem get_budget_summary_spec (month : String) (md : MonthData)
    (groups : List GroupRec) :
    (∀ c ∈ md.categories, c.id ∉ (groupPairs groups).map Prod.fst →
      summaryRow groups c ∈ (get_budget_summary month md groups).categories
      ∧ (summaryRow groups c).category_group = "Unknown")
    ∧ (get_budget_summary month md groups).budgeted
        = (md.categories.map (fun c => safeMilli c.budgeted)).sum
    ∧ (get_budget_summary month md groups).activity
        = (md.categories.map (fun c => safeMilli c.activity)).sum
    ∧ (get_budget_summary month md groups).balance
        = (md.categories.map (fun c => safeMilli c.balance)).sum := by
  refine ⟨?_, ?_, ?_, ?_⟩
  · intro c hc habs
    constructor
    · exact List.mem_map_of_mem (summaryRow groups) hc
    · simp [summaryRow, categoryGroupName_eq_none groups c.id habs]
  · show md.categories.foldl (fun acc c => acc + safeMilli c.budgeted) 0 = _
    rw [foldl_add_map_sum (fun c => safeMilli c.budgeted) md.categories 0,
      zero_add]
  · show md.categories.foldl (fun acc c => acc + safeMilli c.activity) 0 = _
    rw [foldl_add_map_sum (fun c => safeMilli c.activity) md.categories 0,
      zero_add]
  · show md.categories.foldl (fun acc c => acc + safeMilli c.balance) 0 = _
    rw [foldl_add_map_sum (fun c => safeMilli c.balance) md.categories 0,
      zero_add]

/-- Closed witness for C9: the sample month category, unknown to the
sample listing, is reported under the group `"Unknown"`, and the
budgeted total is the sum over the listed month categories. -/
theorem get_budget_summary_spec_witness :
    ((summaryRow sampleCatListing sampleMonthCat).category_group = "Unknown"
      ∧ summaryRow sampleCatListing sampleMonthCat
          ∈ (get_budget_summary "2025-10-01" sampleMonthData sampleCatListing).categories)
    ∧ (get_budget_summary "2025-10-01" sampleMonthData sampleCatListing).budgeted
        = ((sampleMonthData.categories).map (fun c => safeMilli c.budgeted)).sum := by
  have habs : sampleMonthCat.id ∉ (groupPairs sampleCatListing).map Prod.fst := by
    simp [groupPairs, sampleCatListing, sampleCat1, sampleCat2, sampleMonthCat]
  have h := get_budget_summary_spec "2025-10-01" sampleMonthData sampleCatListing
  have h1 := h.1 sampleMonthCat (List.mem_singleton_self _) habs
  exact ⟨⟨h1.2, h1.1⟩, h.2.1⟩

/-- C10: on the read operations, every monetary field is converted by
the total guarded idiom: an absent or zero milliunit value comes out as
`0`, every returned account or transaction is the conversion of a raw
one, and the conversion function itself is total — the unguarded
division branch never applies to a missing value. -/
theorem read_path_milliunit_guard (raws : List RawAccount)
    (txns : List RawTxn) (category_id : Option String) :
    (∀ x : Option ℤ, (x = none ∨ x = some 0) → safeMilli x = 0)
    ∧ (∀ a' ∈ get_accounts raws, ∃ a ∈ raws, a' = convAccount a
        ∧ ((a.balance = none ∨ a.balance = some 0) → a'.balance = 0))
    ∧ (∀ t' ∈ get_transactions_core txns category_id,
        ∃ t ∈ txns, t' = convTxn t
        ∧ ((t.amount = none ∨ t.amount = some 0) → t'.amount = 0)) := by
  have hzero : ∀ x : Option ℤ, (x = none ∨ x = some 0) → safeMilli x = 0 := by
    rintro x (rfl | rfl) <;> simp [safeMilli]
  refine ⟨hzero, ?_, ?_⟩
  · intro a' ha'
    obtain ⟨a, haf, hconv⟩ := List.mem_map.mp ha'
    refine ⟨a, List.mem_of_mem_filter haf, hconv.symm, ?_⟩
    intro hz
    rw [← hconv]
    exact hzero a.balance hz
  · intro t' ht'
    obtain ⟨t, htf, hconv⟩ := List.mem_map.mp ht'
    refine ⟨t, List.mem_of_mem_filter htf, hconv.symm, ?_⟩
    intro hz
    rw [← hconv]
    exact hzero t.amount hz

/-- Closed witness for C10: the account with an absent balance and the
transaction with a zero amount both come out with the value `0`. -/
theorem read_path_milliunit_guard_witness :
    (convAccount sampleRawAccount).balance = 0
    ∧ (convTxn sampleZeroTxn).amount = 0 := by
  have h := read_path_milliunit_guard [sampleRawAccount] [sampleZeroTxn] none
  constructor
  · obtain ⟨a, ha, heq, hz⟩ :=
      h.2.1 (convAccount sampleRawAccount) (List.mem_singleton_self _)
    exact hz (Or.inl (by rw [List.mem_singleton.mp ha]; rfl))
  · obtain ⟨t, ht, heq, hz⟩ :=
      h.2.2 (convTxn sampleZeroTxn) (List.mem_singleton_self _)
    exact hz (Or.inr (by rw [List.mem_singleton.mp ht]; rfl))

/-- C2: `search_transactions` keeps exactly the transactions whose
payee name or memo contains the search term case-insensitively
(whenever the match count fits in the page cap), a transaction whose
payee name and memo are both absent never matches and, the functions
being total, never raises; in particular on the two sample transactions
the search for `"groceries"` returns exactly the memo match. -/
theorem search_transactions_matching (txns : List RawTxn)
    (search_term : String) (limit : Option Nat)
    (hfit : (txns.filter (matchesSearch search_term)).length
      ≤ min (limit.getD 100) 500) :
    (search_transactions txns search_term limit).1
      = (txns.filter (matchesSearch search_term)).map convTxn
    ∧ (search_transactions txns search_term limit).2
      = (txns.filter (matchesSearch search_term)).length
    ∧ (∀ t ∈ txns, t.payee_name = none → t.memo = none →
        matchesSearch search_term t = false)
    ∧ search_transactions [sampleNullTxn, sampleGroceryTxn] "groceries" none
        = ([convTxn sampleGroceryTxn], 1) := by
  have hlen : ((txns.filter (matchesSearch search_term)).map convTxn).length
      ≤ min (limit.getD 100) 500 := by
    rw [List.length_map]
    exact hfit
  have htake := List.take_of_length_le hlen
  refine ⟨?_, ?_, ?_, ?_⟩
  · show ((txns.filter (matchesSearch search_term)).map convTxn).take _ = _
    exact htake
  · show (((txns.filter (matchesSearch search_term)).map convTxn).take _).length = _
    rw [htake, List.length_map]
  · intro t _ hp hm
    simp [matchesSearch, hp, hm]
  · rfl

/-- Closed witness for C2: on the sample pair of transactions the
search for `"groceries"` returns exactly one transaction and the
null-field transaction does not match. -/
theorem search_transactions_matching_witness :
    (search_transactions [sampleNullTxn, sampleGroceryTxn] "groceries" none
        = ([convTxn sampleGroceryTxn], 1))
    ∧ matchesSearch "groceries" sampleNullTxn = false := by
  have h := search_transactions_matching [sampleNullTxn, sampleGroceryTxn]
    "groceries" none (by decide)
  refine ⟨h.2.2.2, ?_⟩
  exact h.2.2.1 sampleNullTxn (List.mem_cons_self _ _) rfl rfl

/-- Dividing out the ceiling division of the transaction count bounds
the count itself: the last page of the local pagination covers every
remaining transaction. -/
theorem le_ceilDiv_mul (n pp : Nat) (hpp : 0 < pp) :
    n ≤ (n + pp - 1) / pp * pp := by
  have hmod := Nat.div_add_mod (n + pp - 1) pp
  have hlt : (n + pp - 1) % pp < pp := Nat.mod_lt _ hpp
  rw [Nat.mul_comm]
  omega

/-- C1: the transaction listing paginates locally over the post-filter
result set: `per_page` defaults to 100 capped at 500, `page` is
1-indexed defaulting to 1, `total_count` is the filtered length,
`total_pages` is the ceiling quotient, `has_next_page` and
`has_prev_page` compare the page against the bounds, the slice is the
page-th chunk, a page beyond `total_pages` yields an empty slice with
`has_next_page=false`; for 250 filtered transactions with `limit=100`,
page 1 has 100 items, 3 total pages, a next page and no previous page,
page 3 has 50 items, no next page and a previous page, and page 4 is
empty. -/
theorem get_transactions_pagination {α : Type} (txns : List α)
    (limit page : Option Nat) :
    (paginateTxns txns limit page).2.per_page = min (limit.getD 100) 500
    ∧ (paginateTxns txns limit page).2.page = page.getD 1
    ∧ (paginateTxns txns limit page).2.total_count = txns.length
    ∧ (paginateTxns txns limit page).2.total_pages
        = (txns.length + (paginateTxns txns limit page).2.per_page - 1)
            / (paginateTxns txns limit page).2.per_page
    ∧ ((paginateTxns txns limit page).2.has_next_page = true
        ↔ (paginateTxns txns limit page).2.page
            < (paginateTxns txns limit page).2.total_pages)
    ∧ ((paginateTxns txns limit page).2.has_prev_page = true
        ↔ 1 < (paginateTxns txns limit page).2.page)
    ∧ (paginateTxns txns limit page).1.length
        = min (paginateTxns txns limit page).2.per_page
            (txns.length - ((paginateTxns txns limit page).2.page - 1)
              * (paginateTxns txns limit page).2.per_page)
    ∧ ((paginateTxns txns limit page).2.total_pages
          < (paginateTxns txns limit page).2.page →
        (paginateTxns txns limit page).1 = []
        ∧ (paginateTxns txns limit page).2.has_next_page = false)
    ∧ (txns.length = 250 →
        (paginateTxns txns (some 100) (some 1)).1.length = 100
        ∧ (paginateTxns txns (some 100) (some 1)).2.total_pages = 3
        ∧ (paginateTxns txns (some 100) (some 1)).2.has_next_page = true
        ∧ (paginateTxns txns (some 100) (some 1)).2.has_prev_page = false
        ∧ (paginateTxns txns (some 100) (some 3)).1.length = 50
        ∧ (paginateTxns txns (some 100) (some 3)).2.has_next_page = false
        ∧ (paginateTxns txns (some 100) (some 3)).2.has_prev_page = true
        ∧ (paginateTxns txns (some 100) (some 4)).1 = []) := by
  refine ⟨rfl, rfl, rfl, rfl, ?_, ?_, ?_, ?_, ?_⟩
  · simp [paginateTxns]
  · simp [paginateTxns]
  · simp [paginateTxns, List.length_take, List.length_drop]
  · intro hbeyond
    simp only [paginateTxns] at hbeyond ⊢
    constructor
    · rcases Nat.eq_zero_or_pos (min (limit.getD 100) 500) with hpp | hpp
      · rw [hpp, List.take_zero]
      · have hle : txns.length ≤ (page.getD 1 - 1) * min (limit.getD 100) 500 := by
          have h1 := le_ceilDiv_mul txns.length (min (limit.getD 100) 500) hpp
          have h2 : (txns.length + min (limit.getD 100) 500 - 1)
                / min (limit.getD 100) 500 ≤ page.getD 1 - 1 := by omega
          calc txns.length
              ≤ (txns.length + min (limit.getD 100) 500 - 1)
                  / min (limit.getD 100) 500 * min (limit.getD 100) 500 := h1
            _ ≤ (page.getD 1 - 1) * min (limit.getD 100) 500 :=
                Nat.mul_le_mul_right _ h2
        rw [List.drop_eq_nil_of_le hle, List.take_nil]
    · simp only [decide_eq_false_iff_not, not_lt]
      omega
  · intro h250
    refine ⟨?_, ?_, ?_, ?_, ?_, ?_, ?_, ?_⟩
    · simp [paginateTxns, List.length_take, List.length_drop, h250]
    · simp [paginateTxns, h250]
    · simp [paginateTxns, h250]
    · simp [paginateTxns]
    · simp [paginateTxns, List.length_take, List.length_drop, h250]
    · simp [paginateTxns, h250]
    · simp [paginateTxns]
    · simp only [paginateTxns, Option.getD_some]
      rw [List.drop_eq_nil_of_le (by rw [h250]; norm_num), List.take_nil]

/-- Closed witness for C1: 250 transactions with `limit=100` give a
full first page, a 50-item third page and an empty fourth page. -/
theorem get_transactions_pagination_witness :
    (paginateTxns (List.range 250) (some 100) (some 1)).1.length = 100
    ∧ (paginateTxns (List.range 250) (some 100) (some 1)).2.total_pages = 3
    ∧ (paginateTxns (List.range 250) (some 100) (some 3)).1.length = 50
    ∧ (paginateTxns (List.range 250) (some 100) (some 4)).1 = [] := by
  have h := (get_transactions_pagination (List.range 250) (some 100)
    (some 1)).2.2.2.2.2.2.2.2 (by simp)
  exact ⟨h.1, h.2.1, h.2.2.2.2.1, h.2.2.2.2.2.2.2⟩

end YnabMcp
